import Mathlib

/-!
Shallow embedding of the stacks-signer / libsigner core (wileyj/stacks-blockchain):
the slot-store client (`src/stacks-signer/src/client/stackerdb.rs`), the node RPC
client (`src/stacks-signer/src/client/stacks_client.rs` and `client/mod.rs`), and
the HTTP event receiver (`src/libsigner/src/events.rs`).  Rust machine integers are
embedded as `Nat` with explicit saturation where the source saturates; fallible
operations return an explicit result type; the network and the node-side slot store
are oracles passed as parameters.
-/

namespace SignerSpec

/-- Rust `Result` values. -/
inductive RustResult (α : Type) (ε : Type) where
  | ok (value : α)
  | err (e : ε)
  deriving DecidableEq, Repr

/-- Result of a Rust call that may also panic (`.expect(..)` / `panic!`). -/
inductive RustOutcome (α : Type) (ε : Type) where
  | ok (value : α)
  | err (e : ε)
  | panicked (msg : String)
  deriving DecidableEq, Repr

/-- The variants of `ClientError` (src/stacks-signer/src/client/mod.rs:41-108)
reachable from the operations embedded here. -/
inductive ClientError where
  | unexpectedResponseFormat (s : String)
  | putChunkRejected (reason : String)
  | readOnlyFailure (s : String)
  | reqwestError (s : String)
  | requestFailure (status : Nat)
  | claritySerializationError
  | retryTimeout
  | notConnected
  | unsupportedStacksFeature (s : String)
  | corruptedRewardSet (s : String)
  deriving DecidableEq, Repr

/-- The constant `u32::MAX`. -/
def U32_MAX : Nat := 4294967295

/-- The constant `u64::MAX`. -/
def U64_MAX : Nat := 18446744073709551615

/-- Rust `u32::saturating_add` on in-range operands. -/
def u32_saturating_add (a b : Nat) : Nat := min (a + b) U32_MAX

/-- Rust `u64::saturating_add` on in-range operands. -/
def u64_saturating_add (a b : Nat) : Nat := min (a + b) U64_MAX

/-- Rust `u64::saturating_sub`; `Nat` subtraction is already truncated. -/
def u64_saturating_sub (a b : Nat) : Nat := a - b

/-- The constant `stacks_common::consts::SIGNER_SLOTS_PER_USER`
(src/stacks-common/src/libcommon.rs:65). -/
def SIGNER_SLOTS_PER_USER : Nat := 13

/-! ### String containment (Rust `str::contains`) -/

/-- Whether the first character list is a leading segment of the second. -/
def leading_segment : List Char → List Char → Bool
  | [], _ => true
  | _ :: _, [] => false
  | a :: as, b :: bs => a == b && leading_segment as bs

/-- Whether the first character list occurs contiguously inside the second. -/
def has_substring : List Char → List Char → Bool
  | needle, [] => needle.isEmpty
  | needle, c :: rest => leading_segment needle (c :: rest) || has_substring needle rest

/-- Rust `hay.contains(needle)` for string slices. -/
def str_contains (hay needle : String) : Bool := has_substring needle.toList hay.toList

/-! ### Slot-store client data model (src/stacks-signer/src/client/stackerdb.rs) -/

/-- The node's rejection reason checked at stackerdb.rs:168. -/
def slot_conflict_message : String := "Data for this slot and version already exist"

/-- Embeds `libstackerdb::StackerDBChunkData` as far as the client constructs it
(slot id, slot version, payload); the signature is attached by `chunk.sign`
which we treat as always succeeding. -/
structure StackerDBChunkData where
  slot_id : Nat
  slot_version : Nat
  data_bytes : List Nat
  deriving DecidableEq, Repr

/-- Embeds `libstackerdb::StackerDBChunkAckData` (accepted flag plus optional reason). -/
structure StackerDBChunkAckData where
  accepted : Bool
  reason : Option String
  deriving DecidableEq, Repr

/-- A `SignerMessage` as `send_message_with_retry` consumes it: its message id
(`message.msg_id()`) and its serialized bytes (`message.serialize_to_vec()`). -/
structure SignerMessage where
  msg_id : Nat
  message_bytes : List Nat
  deriving DecidableEq, Repr

/-- Insert into a `HashMap` modelled as a function to `Option`. -/
def map_insert {β : Type} (f : Nat → Option β) (k : Nat) (v : β) : Nat → Option β :=
  fun n => if n = k then some v else f n

/-- The `StackerDB` client state (stackerdb.rs:38-52): the nested
`slot_versions` version cache, the signer's own slot id, and the reward cycle.
The sessions map holds an entry per `msg_id in 0..SIGNER_SLOTS_PER_USER`
(stackerdb.rs:76), which the embedding records as that range check. -/
structure StackerDB where
  slot_versions : Nat → Option (Nat → Option Nat)
  signer_slot_id : Nat
  reward_cycle : Nat

/-- Joint lookup into a nested version-cache map. -/
def versions_lookup (f : Nat → Option (Nat → Option Nat)) (msg_id slot_id : Nat) :
    Option Nat :=
  match f msg_id with
  | none => none
  | some versions => versions slot_id

/-- Joint lookup into the version cache: the cached version for `(msg_id, slot_id)`. -/
def cache_lookup (db : StackerDB) (msg_id slot_id : Nat) : Option Nat :=
  versions_lookup db.slot_versions msg_id slot_id

/-- stackerdb.rs:123-135: fetch the slot version to attempt.  A missing inner
entry inserts `0` and yields `1`; a missing outer entry creates the inner map
with `slot_id -> 0` and yields `1`; a present entry is used as-is. -/
def read_slot_version (db : StackerDB) (msg_id slot_id : Nat) : Nat × StackerDB :=
  match db.slot_versions msg_id with
  | some versions =>
    match versions slot_id with
    | some version => (version, db)
    | none =>
      (1, { db with
              slot_versions := map_insert db.slot_versions msg_id
                (map_insert versions slot_id 0) })
  | none =>
    (1, { db with
            slot_versions := map_insert db.slot_versions msg_id
              (map_insert (fun _ => none) slot_id 0) })

/-- stackerdb.rs:152-157 and 170-175: `slot_versions.get_mut(&msg_id)` followed
by `versions.insert(slot_id, v)`; `none` models the dead `NotConnected` branch. -/
def set_slot_version (db : StackerDB) (msg_id slot_id version : Nat) : Option StackerDB :=
  match db.slot_versions msg_id with
  | some versions =>
    some { db with
             slot_versions := map_insert db.slot_versions msg_id
               (map_insert versions slot_id version) }
  | none => none

/-- How one pass of the `send_message_with_retry` loop ends. -/
inductive SendOutcome where
  | ok (ack : StackerDBChunkAckData)
  | err (e : ClientError)
  | panicked
  | outOfFuel
  deriving DecidableEq, Repr

/-- One iteration's effect: either the loop returns (`done`) or runs again. -/
inductive StepResult (σ : Type) where
  | done (outcome : SendOutcome) (chunk : StackerDBChunkData) (db : StackerDB) (st : σ)
  | again (chunk : StackerDBChunkData) (db : StackerDB) (st : σ)

/-- The chunk constructed (and attempted) in a loop iteration. -/
def StepResult.chunk {σ : Type} : StepResult σ → StackerDBChunkData
  | .done _ chunk _ _ => chunk
  | .again chunk _ _ => chunk

/-- The client state after a loop iteration. -/
def StepResult.db {σ : Type} : StepResult σ → StackerDB
  | .done _ _ db _ => db
  | .again _ db _ => db

/-- One iteration of the loop body of `send_message_with_retry`
(stackerdb.rs:122-181).  `put` is the node-side store combined with
`retry_with_exponential_backoff(send_request)` (line 149-150), so its `err`
outcome is the propagated `ClientError` of that composition.  Order of effects
follows the source: read (and possibly initialize) the cached version, build
the chunk, panic if no session exists for `msg_id`, put the chunk, bump the
cache to `slot_version.saturating_add(1)`, return the ack if accepted, bump
again and retry on a version-conflict reason, and surface `PutChunkRejected`
on any other reason. -/
def send_message_step {σ : Type}
    (put : σ → Nat → StackerDBChunkData → RustResult StackerDBChunkAckData ClientError × σ)
    (message_bytes : List Nat) (msg_id slot_id : Nat) (db : StackerDB) (st : σ) :
    StepResult σ :=
  let r := read_slot_version db msg_id slot_id
  let slot_version := r.1
  let db1 := r.2
  let chunk : StackerDBChunkData := ⟨slot_id, slot_version, message_bytes⟩
  if SIGNER_SLOTS_PER_USER ≤ msg_id then
    .done .panicked chunk db1 st
  else
    match put st msg_id chunk with
    | (.err e, st1) => .done (.err e) chunk db1 st1
    | (.ok chunk_ack, st1) =>
      match set_slot_version db1 msg_id slot_id (u32_saturating_add slot_version 1) with
      | none => .done (.err .notConnected) chunk db1 st1
      | some db2 =>
        if chunk_ack.accepted then
          .done (.ok chunk_ack) chunk db2 st1
        else
          match chunk_ack.reason with
          | some reason =>
            if str_contains reason slot_conflict_message then
              match set_slot_version db2 msg_id slot_id (u32_saturating_add slot_version 1) with
              | none => .done (.err .notConnected) chunk db2 st1
              | some db3 => .again chunk db3 st1
            else
              .done (.err (.putChunkRejected reason)) chunk db2 st1
          | none => .again chunk db2 st1

/-- Result of a full `send_message_with_retry` call: how it ended, the chunks
constructed and attempted (in order), and the final client and store states. -/
structure SendResultState (σ : Type) where
  outcome : SendOutcome
  chunks_put : List StackerDBChunkData
  client : StackerDB
  store : σ

/-- The retry loop of `send_message_with_retry`, fuel-indexed: `outOfFuel`
models an iteration count exceeding the fuel, not a source-level outcome. -/
def send_message_loop {σ : Type}
    (put : σ → Nat → StackerDBChunkData → RustResult StackerDBChunkAckData ClientError × σ)
    (message_bytes : List Nat) (msg_id slot_id : Nat) :
    Nat → StackerDB → σ → SendResultState σ
  | 0, db, st => ⟨.outOfFuel, [], db, st⟩
  | fuel + 1, db, st =>
    match send_message_step put message_bytes msg_id slot_id db st with
    | .done outcome chunk db1 st1 => ⟨outcome, [chunk], db1, st1⟩
    | .again chunk db1 st1 =>
      let r := send_message_loop put message_bytes msg_id slot_id fuel db1 st1
      ⟨r.outcome, chunk :: r.chunks_put, r.client, r.store⟩

/-- Embeds `StackerDB::send_message_with_retry` (stackerdb.rs:115-182): the message id
and payload come from the message, the slot id is the client's own
`signer_slot_id` (line 121). -/
def send_message_with_retry {σ : Type}
    (put : σ → Nat → StackerDBChunkData → RustResult StackerDBChunkAckData ClientError × σ)
    (fuel : Nat) (db : StackerDB) (st : σ) (message : SignerMessage) : SendResultState σ :=
  send_message_loop put message.message_bytes message.msg_id db.signer_slot_id fuel db st

/-- Modelled from the spec: the node-side slot store is not under `src/` (only
its client is), so its put behavior follows spec.md §3 — "Slots are versioned
unsigned integers starting at 1; the store rejects writes that re-use or
precede a version already present at that slot" — and §4.B step 6 for the
rejection reason "Data for this slot and version already exist".  The state
maps `(msg id, slot id)` to the latest version present, `0` when empty; a put
is accepted exactly when its version is strictly greater. -/
def spec_store_put (latest : Nat → Nat → Nat) (msg_id : Nat) (chunk : StackerDBChunkData) :
    RustResult StackerDBChunkAckData ClientError × (Nat → Nat → Nat) :=
  if latest msg_id chunk.slot_id < chunk.slot_version then
    (.ok ⟨true, none⟩,
     fun k s =>
       if k = msg_id then
         if s = chunk.slot_id then chunk.slot_version else latest k s
       else latest k s)
  else
    (.ok ⟨false, some slot_conflict_message⟩, latest)

/-- Concrete client state for the S5 scenario: version cache holding `1` for
`(kind 3, slot 0)`, own signer slot id 0. -/
def c1_db : StackerDB :=
  ⟨map_insert (fun _ => none) 3 (map_insert (fun _ => none) 0 1), 0, 0⟩

/-- Concrete store state for the S5 scenario: slot `(kind 3, slot 0)` already
holds version 5. -/
def c1_store : Nat → Nat → Nat :=
  fun k s => if k = 3 then (if s = 0 then 5 else 0) else 0

/-! ### Node RPC client (src/stacks-signer/src/client/mod.rs, stacks_client.rs) -/

/-- Backoff timer initial interval in milliseconds (client/mod.rs:35). -/
def BACKOFF_INITIAL_INTERVAL : Nat := 128

/-- Backoff timer max interval in milliseconds (client/mod.rs:37). -/
def BACKOFF_MAX_INTERVAL : Nat := 16384

/-- Embeds `retry_with_exponential_backoff` (client/mod.rs:111-128): retries the
request on every (transient) error following the exponential-backoff schedule
built from `BACKOFF_INITIAL_INTERVAL` and `BACKOFF_MAX_INTERVAL`.  The
embedding supplies the outcome of each attempt as a list whose length reflects
the overall deadline; exhausting it maps to `ClientError::RetryTimeout`. -/
def retry_with_exponential_backoff {ε α : Type} :
    List (RustResult α ε) → RustResult α ClientError
  | [] => .err .retryTimeout
  | .ok a :: _ => .ok a
  | .err _ :: rest => retry_with_exponential_backoff rest

/-- An HTTP response as the client consumes it: the status code and the
JSON-decoded body when decoding succeeds (`response.json::<T>()?`). -/
structure HttpResponse (β : Type) where
  status : Nat
  body : Option β
  deriving DecidableEq, Repr

/-- Embeds `reqwest::StatusCode::is_success()`: 2xx. -/
def status_is_success (status : Nat) : Bool := 200 ≤ status && status < 300

/-- The part of `RPCPeerInfoData` the signer reads. -/
structure RPCPeerInfoData where
  burn_block_height : Nat
  deriving DecidableEq, Repr

/-- The `StacksEpochId` variants relevant to `get_node_epoch`. -/
inductive StacksEpochId where
  | epoch21
  | epoch24
  | epoch25
  | epoch30
  deriving DecidableEq, Repr

/-- One entry of the `epochs` array of `/v2/pox` (`RPCPoxEpoch`). -/
structure RPCPoxEpoch where
  epoch_id : StacksEpochId
  start_height : Nat
  end_height : Nat
  deriving DecidableEq, Repr

/-- The part of `RPCPoxInfoData` the signer reads. -/
structure RPCPoxInfoData where
  first_burnchain_block_height : Nat
  current_burnchain_block_height : Nat
  prepare_phase_block_length : Nat
  reward_phase_block_length : Nat
  epochs : List RPCPoxEpoch
  deriving DecidableEq, Repr

/-- Embeds `StacksClient::get_peer_info` (stacks_client.rs:257-271): GET `/v2/info`
through `retry_with_exponential_backoff`, then the 2xx check, then JSON
decoding (a decode failure surfaces as the transport's own error). -/
def get_peer_info (attempts : List (RustResult (HttpResponse RPCPeerInfoData) String)) :
    RustResult RPCPeerInfoData ClientError :=
  match retry_with_exponential_backoff attempts with
  | .err e => .err e
  | .ok response =>
    if ¬ status_is_success response.status then .err (.requestFailure response.status)
    else
      match response.body with
      | some peer_info => .ok peer_info
      | none => .err (.reqwestError "error decoding response body")

/-- Embeds `StacksClient::get_pox_data` (stacks_client.rs:415-429): GET `/v2/pox`
through `retry_with_exponential_backoff`, then the 2xx check, then JSON
decoding. -/
def get_pox_data (attempts : List (RustResult (HttpResponse RPCPoxInfoData) String)) :
    RustResult RPCPoxInfoData ClientError :=
  match retry_with_exponential_backoff attempts with
  | .err e => .err e
  | .ok response =>
    if ¬ status_is_success response.status then .err (.requestFailure response.status)
    else
      match response.body with
      | some pox_info => .ok pox_info
      | none => .err (.reqwestError "error decoding response body")

/-- Embeds `CallReadOnlyResponse` with fields okay, result, cause. -/
structure CallReadOnlyResponse where
  okay : Bool
  result : Option String
  cause : Option String
  deriving DecidableEq, Repr

/-- Embeds `StacksClient::read_only_contract_call` (stacks_client.rs:553-595).  The
POST is sent once with `send()?` — not through `retry_with_exponential_backoff`
— so a transport error surfaces directly as the reqwest error.  Then: the 2xx
check, JSON decoding, the `okay` check producing
`ReadOnlyFailure("<fn>: <cause>")`, and hex deserialization of `result`
(defaulted to the empty string), embedded as the `deserialize` parameter for
the external Clarity codec. -/
def read_only_contract_call {α : Type} (deserialize : String → Option α)
    (function_name : String)
    (attempt : RustResult (HttpResponse CallReadOnlyResponse) String) :
    RustResult α ClientError :=
  match attempt with
  | .err e => .err (.reqwestError e)
  | .ok response =>
    if ¬ status_is_success response.status then .err (.requestFailure response.status)
    else
      match response.body with
      | none => .err (.reqwestError "error decoding response body")
      | some call_response =>
        if ¬ call_response.okay then
          .err (.readOnlyFailure (function_name ++ ": " ++ call_response.cause.getD "unknown"))
        else
          match deserialize (call_response.result.getD "") with
          | some value => .ok value
          | none => .err .claritySerializationError

/-- Embeds `StacksClient::get_node_epoch` (stacks_client.rs:182-209) after its two
RPC reads: finds the Epoch25 and Epoch30 entries of the pox `epochs` array
(either missing yields `UnsupportedStacksFeature`, with the source's message
strings) and compares the burn block height against their start heights. -/
def get_node_epoch (pox_info : RPCPoxInfoData) (burn_block_height : Nat) :
    RustResult StacksEpochId ClientError :=
  match pox_info.epochs.find? (fun epoch => epoch.epoch_id == StacksEpochId.epoch25) with
  | none => .err (.unsupportedStacksFeature "/v2/pox must report epochs")
  | some epoch_25 =>
    match pox_info.epochs.find? (fun epoch => epoch.epoch_id == StacksEpochId.epoch30) with
    | none => .err (.unsupportedStacksFeature "/v2/pox mut report epochs")
    | some epoch_30 =>
      if burn_block_height < epoch_25.start_height then .ok .epoch24
      else if burn_block_height < epoch_30.start_height then .ok .epoch25
      else .ok .epoch30

/-- Embeds `StacksClient::get_current_reward_cycle` (stacks_client.rs:438-447) after
`get_pox_data`: dividend by `saturating_sub`, divisor by `saturating_add`;
`none` models the Rust panic on division by zero. -/
def get_current_reward_cycle (pox_data : RPCPoxInfoData) : Option Nat :=
  let blocks_mined :=
    u64_saturating_sub pox_data.current_burnchain_block_height
      pox_data.first_burnchain_block_height
  let reward_cycle_length :=
    u64_saturating_add pox_data.reward_phase_block_length pox_data.prepare_phase_block_length
  if reward_cycle_length = 0 then none
  else some (blocks_mined / reward_cycle_length)

/-- The key-id assignment loop of `StacksClient::get_registered_signers_info`
(stacks_client.rs:334-380) restricted to what it computes per signer: starting
from `weight_end = 1`, signer `i` (in reward-set order, with weight `w_i`)
receives `signer_key_ids[i] = [weight_start, weight_start + w_i)` where
`weight_start` is the running `weight_end`. -/
def build_signer_key_ids : List Nat → Nat → List (List Nat)
  | [], _ => []
  | weight :: rest, weight_end =>
    let weight_start := weight_end
    List.range' weight_start weight :: build_signer_key_ids rest (weight_start + weight)

/-- Embeds `signer_key_ids` of `get_registered_signers_info` as a function of the
reward-set weights, with the initial `weight_end = 1` (stacks_client.rs:334). -/
def signer_key_ids (weights : List Nat) : List (List Nat) :=
  build_signer_key_ids weights 1

/-! ### Event receiver (src/libsigner/src/events.rs) -/

/-- The `EventError` variants used by the receiver (`crate::EventError`): the
constructors observable in events.rs. -/
inductive EventError where
  | notBound
  | terminated
  | malformedRequest (s : String)
  | unrecognizedEvent (url : String)
  | deserializeError (s : String)
  | httpError (s : String)
  deriving DecidableEq, Repr

/-- Embeds `StackerDBChunksEvent` (events.rs:35-40). -/
structure StackerDBChunksEvent where
  contract_id : String
  modified_slots : List StackerDBChunkData
  deriving DecidableEq, Repr

/-- HTTP methods as `tiny_http::Method`; the receiver only distinguishes
`Post` from everything else (events.rs:206). -/
inductive HttpMethod where
  | get
  | post
  | put
  | delete
  | head
  deriving DecidableEq, Repr

/-- Display name used in the `MalformedRequest` message. -/
def method_name : HttpMethod → String
  | .get => "GET"
  | .post => "POST"
  | .put => "PUT"
  | .delete => "DELETE"
  | .head => "HEAD"

/-- An inbound HTTP request as `next_event` inspects it. -/
structure HttpRequest where
  method : HttpMethod
  url : String
  body : String
  deriving DecidableEq, Repr

/-- Embeds `StackerDBEventReceiver` state (events.rs:104-115): the consumer channels
(each modelled by whether a send into it succeeds), whether `bind` has run
(`http_server`/`local_addr`), and the stop flag. -/
structure StackerDBEventReceiver where
  out_channels : List Bool
  local_addr : Option String
  has_http_server : Bool
  stop_signal : Bool

/-- Embeds `StackerDBEventReceiver::new` (events.rs:120-128): no consumers, unbound,
stop flag clear. -/
def event_receiver_new : StackerDBEventReceiver :=
  ⟨[], none, false, false⟩

/-- Embeds `StackerDBEventReceiver::add_consumer` (events.rs:278-280). -/
def add_consumer (receiver : StackerDBEventReceiver) (channel : Bool) : StackerDBEventReceiver :=
  { receiver with out_channels := receiver.out_channels ++ [channel] }

/-- Outcome of `HttpServer::http(listener)` inside `bind`, supplied as an
oracle since it is an OS-level effect. -/
inductive BindAttempt where
  | success
  | failure
  deriving DecidableEq, Repr

/-- Embeds `StackerDBEventReceiver::bind` (events.rs:188-192): on success stores the
server and the requested address and returns that address; on failure the
`.expect("failed to start HttpServer")` panics. -/
def event_receiver_bind (receiver : StackerDBEventReceiver) (outcome : BindAttempt)
    (listener : String) : RustOutcome String EventError × StackerDBEventReceiver :=
  match outcome with
  | .failure => (.panicked "failed to start HttpServer", receiver)
  | .success =>
    (.ok listener,
     { receiver with has_http_server := true, local_addr := some listener })

/-- Embeds `StackerDBEventReceiver::get_stop_signaler` (events.rs:284-293): requires a
prior successful `bind` (a recorded `local_addr`), else `NotBound`; the
signaler is the bound address (paired with the shared stop flag). -/
def get_stop_signaler (receiver : StackerDBEventReceiver) : RustResult String EventError :=
  match receiver.local_addr with
  | some local_addr => .ok local_addr
  | none => .err .notBound

/-- Embeds `StackerDBEventReceiver::next_event` (events.rs:197-244) for one inbound
request.  `decode` embeds `serde_json::from_slice`.  The returned `Bool`
records whether an HTTP 200 empty response was sent to the request.  Paths:
no server yet (`with_server`) gives `NotBound`; a set stop flag gives
`Terminated`; a non-POST method gives `MalformedRequest` without responding;
a POST to any url other than `/stackerdb_chunks` is answered 200 and gives
`UnrecognizedEvent(url)`; otherwise the body is decoded (a failure gives
`Deserialize` without responding) and the event is returned after a 200. -/
def next_event (decode : String → Option StackerDBChunksEvent)
    (receiver : StackerDBEventReceiver) (request : HttpRequest) :
    RustResult StackerDBChunksEvent EventError × Bool :=
  if ¬ receiver.has_http_server then (.err .notBound, false)
  else if receiver.stop_signal then (.err .terminated, false)
  else if request.method ≠ .post then
    (.err (.malformedRequest ("Unrecognized method " ++ method_name request.method)), false)
  else if request.url ≠ "/stackerdb_chunks" then
    (.err (.unrecognizedEvent request.url), true)
  else
    match decode request.body with
    | none => (.err (.deserializeError "Could not decode body to JSON"), false)
    | some event => (.ok event, true)

/-- Embeds `StackerDBEventReceiver::forward_event` (events.rs:254-275): false when no
channel is connected; otherwise sends to every channel, returning false on the
first failed send. -/
def forward_event (out_channels : List Bool) (_event : StackerDBChunksEvent) : Bool :=
  if out_channels.isEmpty then false
  else out_channels.all (fun send_ok => send_ok)

/-- Why `main_loop` returned (events.rs:72-100); `blocked` stands for a loop
still waiting on `next_event` when the supplied request trace runs out. -/
inductive LoopExit where
  | stopped
  | terminated
  | forwardFailed
  | blocked
  deriving DecidableEq, Repr

/-- Embeds `EventReceiver::main_loop` (events.rs:72-100) over a trace of `next_event`
results: stop when the stop flag is set; forward each received event, breaking
when forwarding fails; skip `UnrecognizedEvent`; break on `Terminated`; log
and continue on any other error.  Returns the forwarded events and the exit
reason.  The stop flag is only mutated by a concurrent signaler, so it is a
constant of the trace here. -/
def main_loop (out_channels : List Bool) (stopped : Bool) :
    List (RustResult StackerDBChunksEvent EventError) → List StackerDBChunksEvent × LoopExit
  | [] => if stopped then ([], .stopped) else ([], .blocked)
  | result :: rest =>
    if stopped then ([], .stopped)
    else
      match result with
      | .ok event =>
        if forward_event out_channels event then
          let r := main_loop out_channels stopped rest
          (event :: r.1, r.2)
        else ([], .forwardFailed)
      | .err (.unrecognizedEvent _) => main_loop out_channels stopped rest
      | .err .terminated => ([], .terminated)
      | .err _ => main_loop out_channels stopped rest

/-! ### Helper lemmas -/

theorem retry_all_err {ε α : Type} :
    ∀ attempts : List (RustResult α ε), (∀ a ∈ attempts, ∃ e, a = .err e) →
      retry_with_exponential_backoff attempts = .err .retryTimeout := by
  intro attempts h
  induction attempts with
  | nil => rfl
  | cons head rest ih =>
    obtain ⟨e, he⟩ := h head (by simp)
    subst he
    simpa [retry_with_exponential_backoff] using ih (fun a ha => h a (by simp [ha]))

theorem map_insert_self {β : Type} (f : Nat → Option β) (k : Nat) (v : β) :
    map_insert f k v k = some v := by
  simp [map_insert]

theorem map_insert_other {β : Type} (f : Nat → Option β) (k : Nat) (v : β) {n : Nat}
    (h : n ≠ k) : map_insert f k v n = f n := by
  simp [map_insert, h]

theorem map_insert_shadow {β : Type} (f : Nat → Option β) (k : Nat) (x y : β) :
    map_insert (map_insert f k x) k y = map_insert f k y := by
  funext n
  by_cases h : n = k <;> simp [map_insert, h]

theorem versions_lookup_insert (f : Nat → Option (Nat → Option Nat))
    (msg_id : Nat) (m : Nat → Option Nat) (k s : Nat) :
    versions_lookup (map_insert f msg_id m) k s =
      if k = msg_id then m s else versions_lookup f k s := by
  by_cases hk : k = msg_id <;> simp [versions_lookup, map_insert, hk]

theorem versions_lookup_insert_frame (f : Nat → Option (Nat → Option Nat))
    (msg_id slot_id : Nat) (versions : Nat → Option Nat) (v : Nat)
    (hagree : ∀ s2, versions_lookup f msg_id s2 = versions s2)
    (k s : Nat) (hks : ¬(k = msg_id ∧ s = slot_id)) :
    versions_lookup (map_insert f msg_id (map_insert versions slot_id v)) k s =
      versions_lookup f k s := by
  rw [versions_lookup_insert]
  by_cases hk : k = msg_id
  · subst hk
    have hs : s ≠ slot_id := fun hs2 => hks ⟨rfl, hs2⟩
    rw [if_pos rfl, map_insert_other _ _ _ hs]
    exact (hagree s).symm
  · rw [if_neg hk]

theorem read_slot_version_hit (db : StackerDB) (msg_id slot_id c : Nat)
    (versions : Nat → Option Nat) (hdb : db.slot_versions msg_id = some versions)
    (hv : versions slot_id = some c) :
    read_slot_version db msg_id slot_id = (c, db) := by
  simp [read_slot_version, hdb, hv]

theorem read_slot_version_props (db : StackerDB) (msg_id slot_id : Nat) :
    (read_slot_version db msg_id slot_id).2.signer_slot_id = db.signer_slot_id ∧
    (read_slot_version db msg_id slot_id).2.reward_cycle = db.reward_cycle ∧
    (∀ k s, ¬(k = msg_id ∧ s = slot_id) →
      cache_lookup (read_slot_version db msg_id slot_id).2 k s = cache_lookup db k s) := by
  rcases hdb : db.slot_versions msg_id with _ | versions
  · refine ⟨?_, ?_, fun k s hks => ?_⟩ <;>
      simp only [read_slot_version, hdb, cache_lookup]
    rw [versions_lookup_insert]
    by_cases hk : k = msg_id
    · subst hk
      have hs : s ≠ slot_id := fun hs2 => hks ⟨rfl, hs2⟩
      simp [map_insert_other _ _ _ hs, versions_lookup, hdb]
    · simp [hk]
  · rcases hv : versions slot_id with _ | v
    · refine ⟨?_, ?_, fun k s hks => ?_⟩ <;>
        simp only [read_slot_version, hdb, hv, cache_lookup]
      rw [versions_lookup_insert]
      by_cases hk : k = msg_id
      · subst hk
        have hs : s ≠ slot_id := fun hs2 => hks ⟨rfl, hs2⟩
        simp [map_insert_other _ _ _ hs, versions_lookup, hdb]
      · simp [hk]
    · refine ⟨?_, ?_, fun k s hks => ?_⟩ <;>
        simp only [read_slot_version, hdb, hv]

theorem set_slot_version_some (db : StackerDB) (msg_id slot_id v : Nat)
    (versions : Nat → Option Nat) (hdb : db.slot_versions msg_id = some versions) :
    set_slot_version db msg_id slot_id v =
      some { db with slot_versions :=
               map_insert db.slot_versions msg_id (map_insert versions slot_id v) } := by
  simp [set_slot_version, hdb]

theorem set_slot_version_frame (db db2 : StackerDB) (msg_id slot_id v : Nat)
    (h : set_slot_version db msg_id slot_id v = some db2) :
    db2.signer_slot_id = db.signer_slot_id ∧ db2.reward_cycle = db.reward_cycle ∧
    cache_lookup db2 msg_id slot_id = some v ∧
    (∀ k s, ¬(k = msg_id ∧ s = slot_id) → cache_lookup db2 k s = cache_lookup db k s) := by
  rcases hdb : db.slot_versions msg_id with _ | versions
  · simp [set_slot_version, hdb] at h
  · rw [set_slot_version_some db msg_id slot_id v versions hdb] at h
    injection h with h
    subst h
    refine ⟨rfl, rfl, ?_, fun k s hks => ?_⟩
    · simp [cache_lookup, versions_lookup_insert, map_insert_self]
    · simp only [cache_lookup]
      refine versions_lookup_insert_frame db.slot_versions msg_id slot_id versions v
        (fun s2 => ?_) k s hks
      simp [versions_lookup, hdb]

theorem send_message_step_props {σ : Type}
    (put : σ → Nat → StackerDBChunkData → RustResult StackerDBChunkAckData ClientError × σ)
    (bytes : List Nat) (msg_id slot_id : Nat) (db : StackerDB) (st : σ) :
    (send_message_step put bytes msg_id slot_id db st).chunk.slot_id = slot_id ∧
    (send_message_step put bytes msg_id slot_id db st).db.signer_slot_id =
      db.signer_slot_id ∧
    (send_message_step put bytes msg_id slot_id db st).db.reward_cycle = db.reward_cycle ∧
    (∀ k s, ¬(k = msg_id ∧ s = slot_id) →
      cache_lookup (send_message_step put bytes msg_id slot_id db st).db k s =
        cache_lookup db k s) := by
  obtain ⟨hr1, hr2, hr3⟩ := read_slot_version_props db msg_id slot_id
  simp only [send_message_step]
  by_cases hm : SIGNER_SLOTS_PER_USER ≤ msg_id
  · rw [if_pos hm]
    exact ⟨rfl, hr1, hr2, hr3⟩
  · rw [if_neg hm]
    rcases hput : put st msg_id ⟨slot_id, (read_slot_version db msg_id slot_id).1, bytes⟩
        with ⟨ack | e, st1⟩
    · simp only [hput]
      rcases hset : set_slot_version (read_slot_version db msg_id slot_id).2 msg_id slot_id
          (u32_saturating_add (read_slot_version db msg_id slot_id).1 1) with _ | db2
      · simp only [hset]
        exact ⟨rfl, hr1, hr2, hr3⟩
      · simp only [hset]
        obtain ⟨hs1, hs2, _, hs4⟩ := set_slot_version_frame _ db2 msg_id slot_id _ hset
        have h21 : db2.signer_slot_id = db.signer_slot_id := hs1.trans hr1
        have h22 : db2.reward_cycle = db.reward_cycle := hs2.trans hr2
        have h23 : ∀ k s, ¬(k = msg_id ∧ s = slot_id) →
            cache_lookup db2 k s = cache_lookup db k s := fun k s hks =>
          (hs4 k s hks).trans (hr3 k s hks)
        by_cases hacc : ack.accepted = true
        · rw [if_pos hacc]
          exact ⟨rfl, h21, h22, h23⟩
        · rw [if_neg hacc]
          rcases hreason : ack.reason with _ | reason
          · simp only [hreason]
            exact ⟨rfl, h21, h22, h23⟩
          · simp only [hreason]
            by_cases hconf : str_contains reason slot_conflict_message = true
            · rw [if_pos hconf]
              rcases hset2 : set_slot_version db2 msg_id slot_id
                  (u32_saturating_add (read_slot_version db msg_id slot_id).1 1) with _ | db3
              · simp only [hset2]
                exact ⟨rfl, h21, h22, h23⟩
              · simp only [hset2]
                obtain ⟨ht1, ht2, _, ht4⟩ :=
                  set_slot_version_frame db2 db3 msg_id slot_id _ hset2
                exact ⟨rfl, ht1.trans h21, ht2.trans h22,
                  fun k s hks => (ht4 k s hks).trans (h23 k s hks)⟩
            · rw [if_neg hconf]
              exact ⟨rfl, h21, h22, h23⟩
    · simp only [hput]
      exact ⟨rfl, hr1, hr2, hr3⟩

/-! ### C3: epoch selection -/

/-- C3 (counterexample): for the pox response with epochs
`[(Epoch25, start 100), (Epoch30, start 50)]` — both entries present — and
burn height `h = 70`, we have `h ≥ 50`, the Epoch30 start height, yet
`get_node_epoch` returns `Epoch24`, not `Epoch30` as the claim requires. -/
theorem claim_C3_counterexample :
    (RPCPoxInfoData.mk 0 0 0 0 [⟨.epoch25, 100, 200⟩, ⟨.epoch30, 50, 150⟩]).epochs.find?
        (fun epoch => epoch.epoch_id == StacksEpochId.epoch25) = some ⟨.epoch25, 100, 200⟩ ∧
    (RPCPoxInfoData.mk 0 0 0 0 [⟨.epoch25, 100, 200⟩, ⟨.epoch30, 50, 150⟩]).epochs.find?
        (fun epoch => epoch.epoch_id == StacksEpochId.epoch30) = some ⟨.epoch30, 50, 150⟩ ∧
    50 ≤ 70 ∧
    get_node_epoch ⟨0, 0, 0, 0, [⟨.epoch25, 100, 200⟩, ⟨.epoch30, 50, 150⟩]⟩ 70 =
      .ok .epoch24 ∧
    (RustResult.ok StacksEpochId.epoch24 : RustResult StacksEpochId ClientError) ≠
      .ok .epoch30 := by
  decide

/-- C3 (amended): with both epoch entries present, `get_node_epoch` returns
Epoch24 when `h` is strictly below the Epoch25 start height, Epoch25 when `h`
is at least the Epoch25 start height and strictly below the Epoch30 start
height, and Epoch30 when `h` is at least both start heights; a missing entry
fails with `UnsupportedStacksFeature`. -/
theorem claim_C3_amended (pox_info : RPCPoxInfoData) (burn_height : Nat) :
    (∀ epoch_25 epoch_30,
      pox_info.epochs.find? (fun epoch => epoch.epoch_id == StacksEpochId.epoch25) =
        some epoch_25 →
      pox_info.epochs.find? (fun epoch => epoch.epoch_id == StacksEpochId.epoch30) =
        some epoch_30 →
      (burn_height < epoch_25.start_height →
        get_node_epoch pox_info burn_height = .ok .epoch24) ∧
      (epoch_25.start_height ≤ burn_height → burn_height < epoch_30.start_height →
        get_node_epoch pox_info burn_height = .ok .epoch25) ∧
      (epoch_25.start_height ≤ burn_height → epoch_30.start_height ≤ burn_height →
        get_node_epoch pox_info burn_height = .ok .epoch30)) ∧
    (pox_info.epochs.find? (fun epoch => epoch.epoch_id == StacksEpochId.epoch25) = none →
      get_node_epoch pox_info burn_height =
        .err (.unsupportedStacksFeature "/v2/pox must report epochs")) ∧
    (∀ epoch_25,
      pox_info.epochs.find? (fun epoch => epoch.epoch_id == StacksEpochId.epoch25) =
        some epoch_25 →
      pox_info.epochs.find? (fun epoch => epoch.epoch_id == StacksEpochId.epoch30) = none →
      get_node_epoch pox_info burn_height =
        .err (.unsupportedStacksFeature "/v2/pox mut report epochs")) := by
  refine ⟨?_, ?_, ?_⟩
  · intro epoch_25 epoch_30 h25 h30
    refine ⟨?_, ?_, ?_⟩
    · intro hlt
      simp [get_node_epoch, h25, h30, hlt]
    · intro hge hlt
      simp [get_node_epoch, h25, h30, hlt]
      omega
    · intro hge25 hge30
      simp only [get_node_epoch, h25, h30]
      rw [if_neg (by omega), if_neg (by omega)]
  · intro h25
    simp [get_node_epoch, h25]
  · intro epoch_25 h25 h30
    simp [get_node_epoch, h25, h30]

/-- C3 (witness): the amended theorem evaluated on epochs starting at 100 and
200 with burn height 150 yields Epoch25. -/
theorem claim_C3_witness :
    get_node_epoch ⟨0, 0, 0, 0, [⟨.epoch25, 100, 200⟩, ⟨.epoch30, 200, 300⟩]⟩ 150 =
      .ok .epoch25 :=
  ((claim_C3_amended ⟨0, 0, 0, 0, [⟨.epoch25, 100, 200⟩, ⟨.epoch30, 200, 300⟩]⟩ 150).1
    ⟨.epoch25, 100, 200⟩ ⟨.epoch30, 200, 300⟩ (by decide) (by decide)).2.1
      (by decide) (by decide)

/-! ### C4 and C10: reward-cycle arithmetic -/

/-- C4 (counterexample): for the pox response with
`current = u64::MAX`, `first = 0`, `reward_phase_len = prepare_phase_len = 2^63`,
the code divides by the SATURATED divisor `u64::MAX` and returns `1`, while the
claimed formula `(current - first) / (reward_phase_len + prepare_phase_len)`
under integer division yields `0`. -/
theorem claim_C4_counterexample :
    get_current_reward_cycle ⟨0, U64_MAX, 9223372036854775808, 9223372036854775808, []⟩ =
      some 1 ∧
    (U64_MAX - 0) / (9223372036854775808 + 9223372036854775808) = 0 ∧
    (1 : Nat) ≠ 0 := by
  decide

/-- C4 (amended): whenever the two phase lengths sum to a nonzero value that
does not exceed `u64::MAX` (so the saturating addition is exact),
`get_current_reward_cycle` returns the truncated difference
`current − first` divided by `reward_phase_len + prepare_phase_len` with
integer division. -/
theorem claim_C4_amended (pox_data : RPCPoxInfoData)
    (hsum : pox_data.reward_phase_block_length + pox_data.prepare_phase_block_length ≤ U64_MAX)
    (hnz : pox_data.reward_phase_block_length + pox_data.prepare_phase_block_length ≠ 0) :
    get_current_reward_cycle pox_data =
      some ((pox_data.current_burnchain_block_height -
              pox_data.first_burnchain_block_height) /
            (pox_data.reward_phase_block_length + pox_data.prepare_phase_block_length)) := by
  rw [get_current_reward_cycle]
  rw [u64_saturating_add, u64_saturating_sub, min_eq_left hsum, if_neg hnz]

/-- C4 (witness): the amended theorem evaluated on
`first = 5`, `current = 105`, phase lengths `10` and `10` yields cycle `5`. -/
theorem claim_C4_witness :
    get_current_reward_cycle ⟨5, 105, 10, 10, []⟩ = some 5 :=
  claim_C4_amended ⟨5, 105, 10, 10, []⟩ (by decide) (by decide)

/-- C10 (confirmed): `get_current_reward_cycle` never underflows — when
`first > current` the saturating subtraction makes the dividend `0` and the
result is `0` — and it produces a value exactly when the saturating sum of the
two phase lengths is nonzero. -/
theorem claim_C10 (pox_data : RPCPoxInfoData) :
    (pox_data.current_burnchain_block_height < pox_data.first_burnchain_block_height →
      u64_saturating_sub pox_data.current_burnchain_block_height
        pox_data.first_burnchain_block_height = 0 ∧
      (u64_saturating_add pox_data.reward_phase_block_length
          pox_data.prepare_phase_block_length ≠ 0 →
        get_current_reward_cycle pox_data = some 0)) ∧
    ((get_current_reward_cycle pox_data).isSome ↔
      u64_saturating_add pox_data.reward_phase_block_length
        pox_data.prepare_phase_block_length ≠ 0) := by
  constructor
  · intro hlt
    have hzero : u64_saturating_sub pox_data.current_burnchain_block_height
        pox_data.first_burnchain_block_height = 0 := by
      rw [u64_saturating_sub]
      omega
    refine ⟨hzero, fun hnz => ?_⟩
    rw [get_current_reward_cycle, if_neg hnz, hzero]
    simp
  · rw [get_current_reward_cycle]
    by_cases hz : u64_saturating_add pox_data.reward_phase_block_length
        pox_data.prepare_phase_block_length = 0 <;> simp [hz]

/-- C10 (witness): with `first = 10 > current = 3` and phase lengths `1` and
`0`, the result is `0`. -/
theorem claim_C10_witness :
    get_current_reward_cycle ⟨10, 3, 1, 0, []⟩ = some 0 :=
  ((claim_C10 ⟨10, 3, 1, 0, []⟩).1 (by decide)).2 (by decide)

/-! ### C2: exponential backoff coverage -/

/-- C2 (counterexample): a transport failure on the single send of
`read_only_contract_call` surfaces immediately as the reqwest error — it is
not `RetryTimeout` and no retry happens — whereas a call that is actually
wrapped in `retry_with_exponential_backoff` (here `get_peer_info`) recovers
from the same failing first attempt when the next attempt succeeds. -/
theorem claim_C2_counterexample :
    read_only_contract_call (fun _ => some 0) "getPoxInfo" (.err "connection refused") =
      (.err (.reqwestError "connection refused") : RustResult Nat ClientError) ∧
    (.err (.reqwestError "connection refused") : RustResult Nat ClientError) ≠
      .err .retryTimeout ∧
    get_peer_info [.err "connection refused", .ok ⟨200, some ⟨42⟩⟩] = .ok ⟨42⟩ := by
  decide

/-- C2 (amended): the backoff wrapper uses initial interval 128 ms and maximum
interval 16384 ms and yields `RetryTimeout` once the deadline exhausts all
attempts — and the operations routed through it (such as `get_peer_info`)
retry past transient failures — but `read_only_contract_call` performs a
single send, so its transport errors surface directly as `ReqwestError`. -/
theorem claim_C2_amended :
    BACKOFF_INITIAL_INTERVAL = 128 ∧
    BACKOFF_MAX_INTERVAL = 16384 ∧
    (∀ (attempts : List (RustResult (HttpResponse RPCPeerInfoData) String)),
      (∀ a ∈ attempts, ∃ e, a = .err e) →
      get_peer_info attempts = .err .retryTimeout) ∧
    (∀ (e : String) (rest : List (RustResult (HttpResponse RPCPeerInfoData) String)),
      get_peer_info (.err e :: rest) = get_peer_info rest) ∧
    (∀ (α : Type) (deserialize : String → Option α) (function_name e : String),
      read_only_contract_call deserialize function_name (.err e) =
        .err (.reqwestError e)) := by
  refine ⟨rfl, rfl, ?_, ?_, ?_⟩
  · intro attempts h
    rw [get_peer_info, retry_all_err attempts h]
  · intro e rest
    rw [get_peer_info, get_peer_info, retry_with_exponential_backoff]
  · intro α deserialize function_name e
    rfl

/-- C2 (witness): exhausting every attempt of `get_peer_info` yields
`RetryTimeout`. -/
theorem claim_C2_witness :
    get_peer_info [.err "connection refused", .err "connection reset"] =
      .err .retryTimeout :=
  claim_C2_amended.2.2.1 [.err "connection refused", .err "connection reset"]
    (by intro a ha; simp at ha; rcases ha with h | h <;> exact ⟨_, h⟩)

/-! ### C5: unrecognized requests -/

/-- C5 (counterexample): a GET request to `/stackerdb_chunks` has a method
other than POST, so the claim requires a 200 response and
`UnrecognizedEvent`; `next_event` instead returns `MalformedRequest` and
sends no response. -/
theorem claim_C5_counterexample :
    next_event (fun _ => none) ⟨[], some "127.0.0.1:30000", true, false⟩
        ⟨.get, "/stackerdb_chunks", ""⟩ =
      (.err (.malformedRequest "Unrecognized method GET"), false) ∧
    (RustResult.err (.malformedRequest "Unrecognized method GET") :
        RustResult StackerDBChunksEvent EventError) ≠
      .err (.unrecognizedEvent "/stackerdb_chunks") ∧
    false ≠ true := by
  decide

/-- C5 (amended): a POST whose path is not `/stackerdb_chunks` is answered 200
with an empty body and returns `UnrecognizedEvent(path)`; a request whose
method is not POST returns `MalformedRequest` without being answered; and
`main_loop` treats both errors as a non-fatal continue. -/
theorem claim_C5_amended (decode : String → Option StackerDBChunksEvent)
    (receiver : StackerDBEventReceiver) (request : HttpRequest)
    (hbound : receiver.has_http_server = true)
    (hstop : receiver.stop_signal = false) :
    (request.method = .post → request.url ≠ "/stackerdb_chunks" →
      next_event decode receiver request = (.err (.unrecognizedEvent request.url), true)) ∧
    (request.method ≠ .post →
      next_event decode receiver request =
        (.err (.malformedRequest ("Unrecognized method " ++ method_name request.method)),
         false)) ∧
    (∀ (out_channels : List Bool) (url : String)
        (rest : List (RustResult StackerDBChunksEvent EventError)),
      main_loop out_channels false (.err (.unrecognizedEvent url) :: rest) =
        main_loop out_channels false rest) ∧
    (∀ (out_channels : List Bool) (s : String)
        (rest : List (RustResult StackerDBChunksEvent EventError)),
      main_loop out_channels false (.err (.malformedRequest s) :: rest) =
        main_loop out_channels false rest) := by
  refine ⟨?_, ?_, ?_, ?_⟩
  · intro hpost hurl
    simp [next_event, hbound, hstop, hpost, hurl]
  · intro hmethod
    simp [next_event, hbound, hstop, hmethod]
  · intro out_channels url rest
    simp [main_loop]
  · intro out_channels s rest
    simp [main_loop]

/-- C5 (witness): a POST to `/shutdown` is answered 200 and surfaced as
`UnrecognizedEvent("/shutdown")`. -/
theorem claim_C5_witness :
    next_event (fun _ => none) ⟨[], some "127.0.0.1:30000", true, false⟩
        ⟨.post, "/shutdown", ""⟩ =
      (.err (.unrecognizedEvent "/shutdown"), true) :=
  (claim_C5_amended (fun _ => none) ⟨[], some "127.0.0.1:30000", true, false⟩
      ⟨.post, "/shutdown", ""⟩ rfl rfl).1 rfl (by decide)

/-! ### C6: bind behavior -/

/-- C6 (counterexample): when the underlying `HttpServer::http` fails, `bind`
panics with "failed to start HttpServer"; it does not return `NotBound` (nor
any other `EventError`). -/
theorem claim_C6_counterexample :
    (event_receiver_bind event_receiver_new .failure "127.0.0.1:30000").1 =
      .panicked "failed to start HttpServer" ∧
    (RustOutcome.panicked "failed to start HttpServer" : RustOutcome String EventError) ≠
      .err .notBound := by
  decide

/-- C6 (amended): `bind(addr)` on success starts the listener, records the
requested address, and returns that address; when the underlying bind fails
it panics with "failed to start HttpServer" instead of returning an error;
`NotBound` is instead the error of `get_stop_signaler` and `next_event` when
no successful `bind` has happened. -/
theorem claim_C6_amended (receiver : StackerDBEventReceiver) (addr : String) :
    event_receiver_bind receiver .success addr =
      (.ok addr, { receiver with has_http_server := true, local_addr := some addr }) ∧
    event_receiver_bind receiver .failure addr =
      (.panicked "failed to start HttpServer", receiver) ∧
    (∀ (channels : List Bool) (stop : Bool),
      get_stop_signaler ⟨channels, none, false, stop⟩ = .err .notBound) ∧
    (∀ (channels : List Bool) (stop : Bool) (decode : String → Option StackerDBChunksEvent)
        (request : HttpRequest),
      next_event decode ⟨channels, none, false, stop⟩ request = (.err .notBound, false)) := by
  refine ⟨rfl, rfl, fun channels stop => rfl, fun channels stop decode request => ?_⟩
  simp [next_event]

/-! ### C9: main loop with no consumers -/

/-- C9 (confirmed): with no consumer registered (the freshly constructed
receiver), `forward_event` returns false for every event, so `main_loop`
exits with a forwarding failure at the first event it receives, forwarding
nothing. -/
theorem claim_C9 (event : StackerDBChunksEvent)
    (rest : List (RustResult StackerDBChunksEvent EventError)) :
    forward_event event_receiver_new.out_channels event = false ∧
    main_loop event_receiver_new.out_channels false (.ok event :: rest) =
      ([], .forwardFailed) := by
  constructor
  · rfl
  · simp [main_loop, forward_event, event_receiver_new]

/-! ### C7: key-id ranges -/

theorem build_signer_key_ids_length (weights : List Nat) :
    ∀ weight_end : Nat, (build_signer_key_ids weights weight_end).length = weights.length := by
  induction weights with
  | nil => intro _; rfl
  | cons w rest ih =>
    intro weight_end
    simp [build_signer_key_ids, ih]

theorem build_signer_key_ids_getElem? (weights : List Nat) :
    ∀ (weight_end i : Nat), i < weights.length →
      (build_signer_key_ids weights weight_end)[i]? =
        some (List.range' (weight_end + (weights.take i).sum) (weights.getD i 0)) := by
  induction weights with
  | nil =>
    intro _ i h
    cases h
  | cons w rest ih =>
    intro weight_end i h
    cases i with
    | zero => simp [build_signer_key_ids]
    | succ i =>
      have hi : i < rest.length := by simpa using h
      simp only [build_signer_key_ids, List.getElem?_cons_succ]
      rw [ih (weight_end + w) i hi]
      have harg : weight_end + w + (rest.take i).sum =
          weight_end + ((w :: rest).take (i + 1)).sum := by
        simp [List.take_succ_cons]
        omega
      rw [harg]
      rfl

theorem build_signer_key_ids_mem (k : Nat) (weights : List Nat) :
    ∀ weight_end : Nat,
      (∃ l ∈ build_signer_key_ids weights weight_end, k ∈ l) ↔
        weight_end ≤ k ∧ k < weight_end + weights.sum := by
  induction weights with
  | nil =>
    intro weight_end
    simp [build_signer_key_ids]
  | cons w rest ih =>
    intro weight_end
    simp only [build_signer_key_ids, List.mem_cons, List.sum_cons]
    constructor
    · rintro ⟨l, hl | hl, hk⟩
      · subst hl
        have := List.mem_range'_1.mp hk
        omega
      · have := (ih (weight_end + w)).mp ⟨l, hl, hk⟩
        omega
    · intro hbounds
      by_cases hw : k < weight_end + w
      · exact ⟨List.range' weight_end w, Or.inl rfl,
          List.mem_range'_1.mpr (by omega)⟩
      · obtain ⟨l, hl, hk⟩ := (ih (weight_end + w)).mpr (by omega)
        exact ⟨l, Or.inr hl, hk⟩

theorem sum_take_mono (weights : List Nat) (m j : Nat) (h : m ≤ j) :
    (weights.take m).sum ≤ (weights.take j).sum := by
  have hj : j = m + (j - m) := by omega
  rw [hj, List.take_add, List.sum_append]
  omega

theorem signer_key_ids_disjoint_lt (weights : List Nat) (i j : Nat)
    (hij : i < j) (hj : j < weights.length) (k : Nat)
    (hki : k ∈ (signer_key_ids weights).getD i [])
    (hkj : k ∈ (signer_key_ids weights).getD j []) : False := by
  have hi : i < weights.length := lt_trans hij hj
  have hgi := build_signer_key_ids_getElem? weights 1 i hi
  have hgj := build_signer_key_ids_getElem? weights 1 j hj
  rw [List.getD_eq_getElem?_getD, signer_key_ids, hgi] at hki
  rw [List.getD_eq_getElem?_getD, signer_key_ids, hgj] at hkj
  simp only [Option.getD_some] at hki hkj
  have hbi := List.mem_range'_1.mp hki
  have hbj := List.mem_range'_1.mp hkj
  have hstep : (weights.take (i + 1)).sum = (weights.take i).sum + weights.getD i 0 := by
    rw [List.sum_take_succ weights i hi, List.getD_eq_getElem weights 0 hi]
  have hmono := sum_take_mono weights (i + 1) j hij
  omega

/-- C7 (confirmed): the key-id assignment of `get_registered_signers_info`
partitions the contiguous range starting at 1: signer `i` receives exactly
`List.range' (1 + sum of the earlier weights) w_i` — so exactly `w_i` key
ids — distinct signers share no key id, and a key id is assigned somewhere
exactly when it lies in `[1, 1 + total weight)`. -/
theorem claim_C7 (weights : List Nat) :
    (∀ i, i < weights.length →
      (signer_key_ids weights)[i]? =
        some (List.range' (1 + (weights.take i).sum) (weights.getD i 0))) ∧
    (∀ i, i < weights.length →
      ((signer_key_ids weights).getD i []).length = weights.getD i 0) ∧
    (∀ i j, i ≠ j → i < weights.length → j < weights.length → ∀ k,
      k ∈ (signer_key_ids weights).getD i [] → k ∉ (signer_key_ids weights).getD j []) ∧
    (∀ k, (∃ l ∈ signer_key_ids weights, k ∈ l) ↔ 1 ≤ k ∧ k < 1 + weights.sum) := by
  refine ⟨?_, ?_, ?_, ?_⟩
  · intro i hi
    exact build_signer_key_ids_getElem? weights 1 i hi
  · intro i hi
    rw [List.getD_eq_getElem?_getD, signer_key_ids,
      build_signer_key_ids_getElem? weights 1 i hi]
    simp [List.length_range']
  · intro i j hij hi hj k hki hkj
    rcases Nat.lt_or_ge i j with hlt | hge
    · exact signer_key_ids_disjoint_lt weights i j hlt hj k hki hkj
    · have hlt : j < i := by omega
      exact signer_key_ids_disjoint_lt weights j i hlt hi k hkj hki
  · intro k
    exact build_signer_key_ids_mem k weights 1

/-- C7 (witness): for weights `[2, 3]`, signer 1 receives exactly
`[3, 4, 5]` — the contiguous range starting right after signer 0's ids. -/
theorem claim_C7_witness :
    (signer_key_ids [2, 3])[1]? = some (List.range' 3 3) :=
  (claim_C7 [2, 3]).1 1 (by decide)

/-! ### C8: frame properties of send_message_with_retry -/

theorem send_message_loop_frame {σ : Type}
    (put : σ → Nat → StackerDBChunkData → RustResult StackerDBChunkAckData ClientError × σ)
    (bytes : List Nat) (msg_id slot_id : Nat) :
    ∀ (fuel : Nat) (db : StackerDB) (st : σ),
      (∀ chunk ∈ (send_message_loop put bytes msg_id slot_id fuel db st).chunks_put,
        chunk.slot_id = slot_id) ∧
      (send_message_loop put bytes msg_id slot_id fuel db st).client.signer_slot_id =
        db.signer_slot_id ∧
      (send_message_loop put bytes msg_id slot_id fuel db st).client.reward_cycle =
        db.reward_cycle ∧
      (∀ k s, ¬(k = msg_id ∧ s = slot_id) →
        cache_lookup (send_message_loop put bytes msg_id slot_id fuel db st).client k s =
          cache_lookup db k s) := by
  intro fuel
  induction fuel with
  | zero =>
    intro db st
    refine ⟨?_, rfl, rfl, fun k s hks => rfl⟩
    intro chunk hc
    simp [send_message_loop] at hc
  | succ fuel ih =>
    intro db st
    obtain ⟨hp1, hp2, hp3, hp4⟩ := send_message_step_props put bytes msg_id slot_id db st
    rw [send_message_loop]
    cases hres : send_message_step put bytes msg_id slot_id db st with
    | done outcome chunk db1 st1 =>
      rw [hres] at hp1 hp2 hp3 hp4
      simp only [StepResult.chunk, StepResult.db] at hp1 hp2 hp3 hp4
      refine ⟨?_, hp2, hp3, hp4⟩
      intro c hc
      have hc2 : c = chunk := List.mem_singleton.mp hc
      subst hc2
      exact hp1
    | again chunk db1 st1 =>
      rw [hres] at hp1 hp2 hp3 hp4
      simp only [StepResult.chunk, StepResult.db] at hp1 hp2 hp3 hp4
      obtain ⟨h1, h2, h3, h4⟩ := ih db1 st1
      refine ⟨?_, h2.trans hp2, h3.trans hp3, fun k s hks => (h4 k s hks).trans (hp4 k s hks)⟩
      intro c hc
      rcases List.mem_cons.mp hc with hc2 | hc2
      · subst hc2
        exact hp1
      · exact h1 c hc2

/-- C8 (confirmed): every chunk constructed and put by
`send_message_with_retry` carries `slot_id` equal to the client's own
`signer_slot_id` — a signer never writes to another signer's slot — and the
call leaves `signer_slot_id`, `reward_cycle`, and the cached versions of
every other `(kind, slot_id)` pair unchanged; this holds for every store
behavior, fuel, initial state, and message. -/
theorem claim_C8 {σ : Type}
    (put : σ → Nat → StackerDBChunkData → RustResult StackerDBChunkAckData ClientError × σ)
    (fuel : Nat) (db : StackerDB) (st : σ) (message : SignerMessage) :
    (∀ chunk ∈ (send_message_with_retry put fuel db st message).chunks_put,
      chunk.slot_id = db.signer_slot_id) ∧
    (send_message_with_retry put fuel db st message).client.signer_slot_id =
      db.signer_slot_id ∧
    (send_message_with_retry put fuel db st message).client.reward_cycle =
      db.reward_cycle ∧
    (∀ k s, ¬(k = message.msg_id ∧ s = db.signer_slot_id) →
      cache_lookup (send_message_with_retry put fuel db st message).client k s =
        cache_lookup db k s) :=
  send_message_loop_frame put message.message_bytes message.msg_id db.signer_slot_id
    fuel db st

/-- C8 (witness): on a concrete run against the modelled store, the cache
entry of the foreign pair `(5, 9)` is untouched. -/
theorem claim_C8_witness :
    cache_lookup (send_message_with_retry spec_store_put 3
        ⟨map_insert (fun _ => none) 3 (map_insert (fun _ => none) 0 1), 0, 7⟩
        (fun _ _ => 0) ⟨3, [1, 2]⟩).client 5 9 =
      cache_lookup ⟨map_insert (fun _ => none) 3 (map_insert (fun _ => none) 0 1), 0, 7⟩
        5 9 :=
  (claim_C8 spec_store_put 3
      ⟨map_insert (fun _ => none) 3 (map_insert (fun _ => none) 0 1), 0, 7⟩
      (fun _ _ => 0) ⟨3, [1, 2]⟩).2.2.2 5 9 (by decide)

/-! ### C1: slot-version reconciliation against the modelled store -/

theorem slot_conflict_contains_self :
    str_contains slot_conflict_message slot_conflict_message = true := by
  decide

theorem send_step_store_accept (bytes : List Nat) (msg_id slot_id c : Nat)
    (db : StackerDB) (latest : Nat → Nat → Nat) (versions : Nat → Option Nat)
    (hm : ¬ SIGNER_SLOTS_PER_USER ≤ msg_id)
    (hdb : db.slot_versions msg_id = some versions)
    (hv : versions slot_id = some c)
    (hc : c + 1 ≤ U32_MAX)
    (hacc : latest msg_id slot_id < c) :
    send_message_step spec_store_put bytes msg_id slot_id db latest =
      .done (.ok ⟨true, none⟩) ⟨slot_id, c, bytes⟩
        { db with slot_versions :=
            map_insert db.slot_versions msg_id (map_insert versions slot_id (c + 1)) }
        (fun k s => if k = msg_id then (if s = slot_id then c else latest k s)
                    else latest k s) := by
  have hsat : u32_saturating_add c 1 = c + 1 := by
    rw [u32_saturating_add]
    omega
  simp only [send_message_step, read_slot_version_hit db msg_id slot_id c versions hdb hv]
  rw [if_neg hm]
  simp only [spec_store_put]
  rw [if_pos hacc]
  simp only [hsat, set_slot_version_some db msg_id slot_id (c + 1) versions hdb]
  simp

theorem send_step_store_reject (bytes : List Nat) (msg_id slot_id c : Nat)
    (db : StackerDB) (latest : Nat → Nat → Nat) (versions : Nat → Option Nat)
    (hm : ¬ SIGNER_SLOTS_PER_USER ≤ msg_id)
    (hdb : db.slot_versions msg_id = some versions)
    (hv : versions slot_id = some c)
    (hc : c + 1 ≤ U32_MAX)
    (hrej : ¬ latest msg_id slot_id < c) :
    send_message_step spec_store_put bytes msg_id slot_id db latest =
      .again ⟨slot_id, c, bytes⟩
        { db with slot_versions :=
            map_insert db.slot_versions msg_id (map_insert versions slot_id (c + 1)) }
        latest := by
  have hsat : u32_saturating_add c 1 = c + 1 := by
    rw [u32_saturating_add]
    omega
  have hdb2 : (map_insert db.slot_versions msg_id (map_insert versions slot_id (c + 1)))
      msg_id = some (map_insert versions slot_id (c + 1)) := map_insert_self _ _ _
  simp only [send_message_step, read_slot_version_hit db msg_id slot_id c versions hdb hv]
  rw [if_neg hm]
  simp only [spec_store_put]
  rw [if_neg hrej]
  simp only [hsat, set_slot_version_some db msg_id slot_id (c + 1) versions hdb,
    slot_conflict_contains_self]
  rw [set_slot_version_some _ msg_id slot_id (c + 1) (map_insert versions slot_id (c + 1))
    hdb2]
  simp only [map_insert_shadow]
  simp

theorem send_loop_store_spec (bytes : List Nat) (msg_id slot_id : Nat)
    (hm : ¬ SIGNER_SLOTS_PER_USER ≤ msg_id) :
    ∀ (fuel c : Nat) (db : StackerDB) (latest : Nat → Nat → Nat)
      (versions : Nat → Option Nat),
      db.slot_versions msg_id = some versions →
      versions slot_id = some c →
      max c (latest msg_id slot_id + 1) < c + fuel →
      max c (latest msg_id slot_id + 1) + 1 ≤ U32_MAX →
      (send_message_loop spec_store_put bytes msg_id slot_id fuel db latest).outcome =
        .ok ⟨true, none⟩ ∧
      (send_message_loop spec_store_put bytes msg_id slot_id fuel db latest).chunks_put =
        (List.range' c (max c (latest msg_id slot_id + 1) + 1 - c)).map
          (fun v => ⟨slot_id, v, bytes⟩) ∧
      cache_lookup
        (send_message_loop spec_store_put bytes msg_id slot_id fuel db latest).client
        msg_id slot_id = some (max c (latest msg_id slot_id + 1) + 1) ∧
      (send_message_loop spec_store_put bytes msg_id slot_id fuel db latest).store
        msg_id slot_id = max c (latest msg_id slot_id + 1) := by
  intro fuel
  induction fuel with
  | zero =>
    intro c db latest versions hdb hv hfuel hbound
    exact absurd hfuel (by omega)
  | succ fuel ih =>
    intro c db latest versions hdb hv hfuel hbound
    by_cases hacc : latest msg_id slot_id < c
    · have hmax : max c (latest msg_id slot_id + 1) = c := by omega
      rw [send_message_loop, send_step_store_accept bytes msg_id slot_id c db latest
        versions hm hdb hv (by omega) hacc, hmax]
      have hone : c + 1 - c = 1 := by omega
      refine ⟨rfl, ?_, ?_, ?_⟩
      · rw [hone]
        rfl
      · simp [cache_lookup, versions_lookup_insert, map_insert_self]
      · simp
    · have hmax : max (c + 1) (latest msg_id slot_id + 1) =
          max c (latest msg_id slot_id + 1) := by omega
      rw [send_message_loop, send_step_store_reject bytes msg_id slot_id c db latest
        versions hm hdb hv (by omega) hacc]
      obtain ⟨ho, hcks, hcache, hstore⟩ := ih (c + 1)
        { db with slot_versions :=
            map_insert db.slot_versions msg_id (map_insert versions slot_id (c + 1)) }
        latest (map_insert versions slot_id (c + 1))
        (map_insert_self _ _ _) (map_insert_self _ _ _) (by omega) (by omega)
      rw [hmax] at hcks hcache hstore
      refine ⟨ho, ?_, hcache, hstore⟩
      show _ :: _ = _
      rw [hcks]
      have harith : max c (latest msg_id slot_id + 1) + 1 - c =
          (max c (latest msg_id slot_id + 1) + 1 - (c + 1)) + 1 := by omega
      rw [harith, List.range'_succ, List.map_cons]

/-- C1 (counterexample): in the S5 scenario — the store already holds version
5 for `(kind 3, slot 0)` and the client cache says version 1 —
`send_message_with_retry` converges, attempting versions 1 through 6 with the
last one accepted, but it leaves the cached version at 7, not 6: the cache
stores one past the successful version. -/
theorem claim_C1_counterexample :
    c1_store 3 0 = 5 ∧
    cache_lookup c1_db 3 0 = some 1 ∧
    (send_message_with_retry spec_store_put 10 c1_db c1_store ⟨3, []⟩).outcome =
      .ok ⟨true, none⟩ ∧
    (send_message_with_retry spec_store_put 10 c1_db c1_store ⟨3, []⟩).chunks_put =
      [⟨0, 1, []⟩, ⟨0, 2, []⟩, ⟨0, 3, []⟩, ⟨0, 4, []⟩, ⟨0, 5, []⟩, ⟨0, 6, []⟩] ∧
    cache_lookup (send_message_with_retry spec_store_put 10 c1_db c1_store ⟨3, []⟩).client
      3 0 = some 7 ∧
    (7 : Nat) ≠ 6 := by
  decide

/-- C1 (amended): against a store whose latest version for the signer's slot
is `latest` and with cached version `c`, `send_message_with_retry` converges:
it attempts exactly the consecutive versions `c, c+1, …, max c (latest+1)` —
so after every rejection with reason "Data for this slot and version already
exist" the next attempted put uses exactly the previous attempted version
plus 1 — the final (successful) write is `max c (latest+1)`, and the call
leaves the cached version one PAST the successful write, at
`max c (latest+1) + 1`; in particular, with the store at version 5 and the
cache at 1 it converges, writes version 6, and leaves the cache at 7. -/
theorem claim_C1_amended (message : SignerMessage) (fuel c : Nat) (db : StackerDB)
    (latest : Nat → Nat → Nat)
    (hm : message.msg_id < SIGNER_SLOTS_PER_USER)
    (hcache : cache_lookup db message.msg_id db.signer_slot_id = some c)
    (hfuel : max c (latest message.msg_id db.signer_slot_id + 1) < c + fuel)
    (hbound : max c (latest message.msg_id db.signer_slot_id + 1) + 1 ≤ U32_MAX) :
    (send_message_with_retry spec_store_put fuel db latest message).outcome =
      .ok ⟨true, none⟩ ∧
    (send_message_with_retry spec_store_put fuel db latest message).chunks_put =
      (List.range' c (max c (latest message.msg_id db.signer_slot_id + 1) + 1 - c)).map
        (fun v => ⟨db.signer_slot_id, v, message.message_bytes⟩) ∧
    (∀ i v w,
      (send_message_with_retry spec_store_put fuel db latest message).chunks_put[i]? =
        some v →
      (send_message_with_retry spec_store_put fuel db latest
          message).chunks_put[i + 1]? = some w →
      w.slot_version = v.slot_version + 1) ∧
    cache_lookup (send_message_with_retry spec_store_put fuel db latest message).client
      message.msg_id db.signer_slot_id =
      some (max c (latest message.msg_id db.signer_slot_id + 1) + 1) ∧
    (send_message_with_retry spec_store_put fuel db latest message).store
      message.msg_id db.signer_slot_id =
      max c (latest message.msg_id db.signer_slot_id + 1) := by
  have hcl : versions_lookup db.slot_versions message.msg_id db.signer_slot_id =
      some c := hcache
  rw [versions_lookup] at hcl
  rcases hdb : db.slot_versions message.msg_id with _ | versions
  · rw [hdb] at hcl
    cases hcl
  · rw [hdb] at hcl
    obtain ⟨h1, h2, h3, h4⟩ := send_loop_store_spec message.message_bytes message.msg_id
      db.signer_slot_id (by omega) fuel c db latest versions hdb hcl hfuel hbound
    refine ⟨h1, h2, ?_, h3, h4⟩
    intro i v w hv hw
    rw [show (send_message_with_retry spec_store_put fuel db latest
        message).chunks_put =
      (send_message_loop spec_store_put message.message_bytes message.msg_id
        db.signer_slot_id fuel db latest).chunks_put from rfl, h2] at hv hw
    by_cases hi : i < max c (latest message.msg_id db.signer_slot_id + 1) + 1 - c
    · by_cases hi2 : i + 1 < max c (latest message.msg_id db.signer_slot_id + 1) + 1 - c
      · rw [List.getElem?_map, List.getElem?_range' _ _ hi] at hv
        rw [List.getElem?_map, List.getElem?_range' _ _ hi2] at hw
        simp only [Option.map_some'] at hv hw
        have hv2 := (Option.some.injEq _ _).mp hv
        have hw2 := (Option.some.injEq _ _).mp hw
        rw [← hv2, ← hw2]
        simp
        omega
      · rw [List.getElem?_map] at hw
        rw [List.getElem?_eq_none (by simpa using (by omega : ¬ i + 1 <
          max c (latest message.msg_id db.signer_slot_id + 1) + 1 - c))] at hw
        cases hw
    · rw [List.getElem?_map] at hv
      rw [List.getElem?_eq_none (by simpa using hi)] at hv
      cases hv

/-- C1 (witness): the amended theorem evaluated on the S5 inputs — store at
version 5, cache at 1 — leaves the cached version at `max 1 (5+1) + 1 = 7`. -/
theorem claim_C1_witness :
    cache_lookup (send_message_with_retry spec_store_put 10 c1_db c1_store ⟨3, []⟩).client
      3 0 = some 7 :=
  (claim_C1_amended ⟨3, []⟩ 10 1 c1_db c1_store (by decide) (by decide) (by decide)
    (by decide)).2.2.2.1

end SignerSpec
